import Mathlib

/-!
Shallow embedding of `src/main.py` (Best-Egg-Assessment): a batch ETL pass
that reads a pipe-delimited column-definition file and a pipe-delimited data
file, derives a sorted header, rewrites the data rows as comma-delimited
lines, composes the CSV payload, writes it, and gates the storage hand-off on
a row-count check.

Python strings are modelled as Lean `String` (with `List Char` underneath);
`str.split(sep)` for a single-character separator, `sep.join`, `str.strip()`
and `int(...)` are given explicit executable models below.  Exceptions
(`ValueError` from `int`, `IndexError` from subscripting) are modelled by
`Option`: `none` is a raised exception, i.e. an aborted run.
-/

/-- The whitespace characters stripped by Python's `str.strip()`
(ASCII fragment; the inputs of interest are ASCII). -/
def isPySpace (c : Char) : Bool :=
  c = ' ' ∨ c = '\t' ∨ c = '\n' ∨ c = '\r' ∨ c = '\x0b' ∨ c = '\x0c'

/-- `str.split(sep)` for a one-character separator, on the character list:
splits at every occurrence of `sep`, keeping empty segments, so the result is
always non-empty (`"".split(sep) == [""]`). -/
def splitCharL (sep : Char) : List Char → List (List Char)
  | [] => [[]]
  | c :: cs =>
    match splitCharL sep cs with
    | [] => [[]]
    | r :: rs => if c = sep then [] :: r :: rs else (c :: r) :: rs

/-- `sep.join(parts)` for a one-character separator, on character lists. -/
def joinWith (sep : Char) : List (List Char) → List Char
  | [] => []
  | [p] => p
  | p :: q :: ps => p ++ sep :: joinWith sep (q :: ps)

/-- `s.split(sep)` on `String`. -/
def pySplit (sep : Char) (s : String) : List String :=
  (splitCharL sep s.data).map List.asString

/-- `sep.join(parts)` on `String`. -/
def pyJoin (sep : Char) (parts : List String) : String :=
  (joinWith sep (parts.map String.data)).asString

/-- `s.strip()`: remove leading and trailing whitespace. -/
def pyStrip (s : String) : String :=
  (((s.data.dropWhile isPySpace).reverse.dropWhile isPySpace).reverse).asString

/-- Decimal value of a non-empty all-digit string, `none` otherwise. -/
def pyDigits (l : List Char) : Option Nat :=
  if l ≠ [] ∧ l.all Char.isDigit then
    some (l.foldl (fun n c => 10 * n + (c.toNat - 48)) 0)
  else none

/-- Python `int(s)` on a string: optional surrounding whitespace, optional
sign, then a non-empty digit string; anything else raises `ValueError`
(modelled as `none`).  (Python additionally allows `_` digit grouping, which
no input of this pipeline uses.) -/
def pyInt (s : String) : Option Int :=
  let t := ((s.data.dropWhile isPySpace).reverse.dropWhile isPySpace).reverse
  match t with
  | '+' :: rest => (pyDigits rest).map Int.ofNat
  | '-' :: rest => (pyDigits rest).map (fun n => -(n : Int))
  | _ => (pyDigits t).map Int.ofNat

/-- Insert a `(key, line)` pair into an already keyed list, before the first
element with a strictly larger key — so equal keys keep their original
relative order (stability). -/
def insertKeyed (x : Int × String) : List (Int × String) → List (Int × String)
  | [] => [x]
  | y :: ys => if y.1 < x.1 then y :: insertKeyed x ys else x :: y :: ys

/-- Stable insertion sort on keyed pairs, ascending by key.  This models the
semantics of Python's `sorted` (Timsort), which guarantees stability: any
stable sort produces the identical output list. -/
def isortKeyed : List (Int × String) → List (Int × String)
  | [] => []
  | x :: xs => insertKeyed x (isortKeyed xs)

/-- Evaluate a fallible function on every element of a list, left to right,
failing as soon as one element fails — the semantics both of a Python list
comprehension over an expression that can raise, and of `sorted`'s key
decoration pass. -/
def mapOpt (f : α → Option β) : List α → Option (List β)
  | [] => some []
  | a :: as =>
    match f a, mapOpt f as with
    | some b, some bs => some (b :: bs)
    | _, _ => none

/-- The sort key computed by `sort_by`'s lambda on one item:
`int(item.split('|')[key_index])`.  `none` is a raised `IndexError` or
`ValueError`. -/
def sortKey (key_index : Nat) (item : String) : Option Int :=
  match (pySplit '|' item)[key_index]? with
  | none => none
  | some seg => pyInt seg

/-- `sort_by(data, key_index)` from `src/main.py`:
`sorted(data, key=lambda item: int(item.split('|')[key_index]))`.
Python's `sorted` evaluates the key on every item (raising when one is bad),
then stable-sorts the items by key. -/
def sort_by (data : List String) (key_index : Nat) : Option (List String) :=
  match mapOpt (fun item => (sortKey key_index item).map (fun k => (k, item))) data with
  | none => none
  | some keyed => some ((isortKeyed keyed).map Prod.snd)

/-- `prep_cols(cols)` from `src/main.py`: sort by the integer value of
segment 0, then project each sorted line to segment 1
(`[col.split('|')[1] for col in cols_sorted]`; a missing segment 1 is an
`IndexError`). -/
def prep_cols (cols : List String) : Option (List String) :=
  match sort_by cols 0 with
  | none => none
  | some cols_sorted => mapOpt (fun col => (pySplit '|' col)[1]?) cols_sorted

/-- `prep_data(data)` from `src/main.py`:
`[','.join(row.split('|')) for row in data]`. -/
def prep_data (data : List String) : List String :=
  data.map (fun row => pyJoin ',' (pySplit '|' row))

/-- `compose_csv_data(data, cols)` from `src/main.py`: `None` (modelled
`none`) when either argument is `None` or an empty list, otherwise the
concatenation `cols + data` with `row_count = len(result)`. -/
def compose_csv_data (data cols : Option (List String)) :
    Option (List String × Nat) :=
  match data, cols with
  | some d, some c =>
    if d = [] ∨ c = [] then none
    else some (c ++ d, (c ++ d).length)
  | _, _ => none

/-- The decorated `read_file` from `src/main.py`, with the file's raw lines
supplied as input: optionally strips each line, and the wrapper returns
`None` when the resulting list is empty. -/
def read_file (lines : List String) (strip_whitespace : Bool) :
    Option (List String) :=
  let d := if strip_whitespace then lines.map pyStrip else lines
  if d = [] then none else some d

/-- `EXPECTED_ROW_COUNT` from `src/main.py`. -/
def EXPECTED_ROW_COUNT : Int := 1000

/-- The distinct places where the `__main__` block of `src/main.py` stops
before completing the storage hand-off: `sys.exit()` on an empty column
file, an uncaught exception inside `prep_cols`, `sys.exit()` on an empty
data file, the `.values()` crash if `compose_csv_data` returned `None`, and
`sys.exit()` at the row-count check (recording the observed and expected
data-row counts compared there). -/
inductive Halt where
  | emptyColumns : Halt
  | malformedColumns : Halt
  | emptyData : Halt
  | compositionFailure : Halt
  | rowCountMismatch (observed expected : Int) : Halt
deriving DecidableEq

/-- Observable outcome of one run of the `__main__` block: the artifact
lines written to disk (if the write at line 151 was reached), the artifact
forwarded to `storage_lib.load_csv` (if validation passed), and where the
run halted, if it did. -/
structure RunResult where
  written : Option (List String)
  stored : Option (List String)
  halt : Option Halt
deriving DecidableEq

/-- The `__main__` block of `src/main.py`, with the two source files' raw
lines and the expected row-count constant as inputs: read and strip the
column file, prepare columns, read and strip the data file, transform rows,
compose, write the artifact, then forward it to storage only when
`row_count - 1` equals the expected constant. -/
def run_main (colFile dataFile : List String) (expected : Int) : RunResult :=
  match read_file colFile true with
  | none => ⟨none, none, some Halt.emptyColumns⟩
  | some cols =>
    match prep_cols cols with
    | none => ⟨none, none, some Halt.malformedColumns⟩
    | some names =>
      let prepped_cols_names := [pyJoin ',' names]
      match read_file dataFile true with
      | none => ⟨none, none, some Halt.emptyData⟩
      | some source_data =>
        let prepped_source_data := prep_data source_data
        match compose_csv_data (some prepped_source_data) (some prepped_cols_names) with
        | none => ⟨none, none, some Halt.compositionFailure⟩
        | some (lines, row_count) =>
          if (row_count : Int) - 1 ≠ expected then
            ⟨some lines, none,
              some (Halt.rowCountMismatch ((row_count : Int) - 1) expected)⟩
          else ⟨some lines, some lines, none⟩

example : pySplit '|' "1|name" = ["1", "name"] := by decide
example : pySplit '|' "" = [""] := by decide
example : pyJoin ',' ["a", "b"] = "a,b" := by decide
example : pyInt "12" = some 12 := by decide
example : pyInt "abc" = none := by decide
example : pyInt " -7 " = some (-7) := by decide
example : prep_cols ["1|name", "0|id"] = some ["id", "name"] := by decide
example : prep_data ["2|bob", "1|alice"] = ["2,bob", "1,alice"] := by decide
example : prep_cols ["1|name|extra"] = some ["name"] := by decide
example : prep_cols ["abc|name"] = none := by decide
example : prep_cols ["5"] = none := by decide
example :
    run_main ["1|name", "0|id"] ["2|bob", "1|alice"] 2 =
      ⟨some ["id,name", "2,bob", "1,alice"],
       some ["id,name", "2,bob", "1,alice"], none⟩ := by decide
example :
    run_main ["xx"] [] 5 = ⟨none, none, some Halt.malformedColumns⟩ := by decide

/-! ### Basic lemmas about the string-operation models -/

theorem data_asString (l : List Char) : l.asString.data = l := rfl

theorem asString_data (s : String) : s.data.asString = s := rfl

theorem splitCharL_ne_nil (sep : Char) (l : List Char) : splitCharL sep l ≠ [] := by
  cases l with
  | nil => simp [splitCharL]
  | cons c cs =>
    simp only [splitCharL]
    cases splitCharL sep cs with
    | nil => simp
    | cons r rs =>
      by_cases h : c = sep <;> simp [h]

theorem splitCharL_of_not_mem (sep : Char) (l : List Char) (h : sep ∉ l) :
    splitCharL sep l = [l] := by
  induction l with
  | nil => rfl
  | cons c cs ih =>
    have hc : c ≠ sep := fun hc => h (by simp [hc])
    have hcs : sep ∉ cs := fun hm => h (List.mem_cons_of_mem _ hm)
    simp [splitCharL, ih hcs, hc]

theorem splitCharL_append (sep : Char) (p t : List Char) (h : sep ∉ p) :
    splitCharL sep (p ++ sep :: t) = p :: splitCharL sep t := by
  induction p with
  | nil =>
    simp only [List.nil_append, splitCharL]
    cases ht : splitCharL sep t with
    | nil => exact absurd ht (splitCharL_ne_nil sep t)
    | cons r rs => simp
  | cons c cs ih =>
    have hc : c ≠ sep := fun hc => h (by simp [hc])
    have hcs : sep ∉ cs := fun hm => h (List.mem_cons_of_mem _ hm)
    simp [splitCharL, ih hcs, hc]

theorem splitCharL_joinWith (sep : Char) (parts : List (List Char))
    (hne : parts ≠ []) (hsep : ∀ p ∈ parts, sep ∉ p) :
    splitCharL sep (joinWith sep parts) = parts := by
  induction parts with
  | nil => exact absurd rfl hne
  | cons p ps ih =>
    cases ps with
    | nil =>
      simpa [joinWith] using
        splitCharL_of_not_mem sep p (hsep p (List.mem_cons_self p []))
    | cons q qs =>
      have hp : sep ∉ p := hsep p (List.mem_cons_self _ _)
      have hrest : ∀ r ∈ q :: qs, sep ∉ r := fun r hr =>
        hsep r (List.mem_cons_of_mem _ hr)
      have := ih (by simp) hrest
      simp only [joinWith]
      rw [splitCharL_append sep p _ hp, this]

theorem mem_of_mem_splitCharL (sep c : Char) (l p : List Char)
    (hp : p ∈ splitCharL sep l) (hc : c ∈ p) : c ∈ l := by
  induction l generalizing p with
  | nil =>
    simp only [splitCharL, List.mem_singleton] at hp
    subst hp
    exact absurd hc (List.not_mem_nil c)
  | cons d ds ih =>
    cases hds : splitCharL sep ds with
    | nil => exact absurd hds (splitCharL_ne_nil sep ds)
    | cons r rs =>
      simp only [splitCharL, hds] at hp
      by_cases hd : d = sep
      · rw [if_pos hd] at hp
        simp only [List.mem_cons] at hp
        rcases hp with hp | hp | hp
        · subst hp; exact absurd hc (List.not_mem_nil c)
        · exact List.mem_cons_of_mem _ (ih r (by rw [hds]; exact List.mem_cons_self _ _) (hp ▸ hc))
        · exact List.mem_cons_of_mem _ (ih p (by rw [hds]; exact List.mem_cons_of_mem _ hp) hc)
      · rw [if_neg hd] at hp
        simp only [List.mem_cons] at hp
        rcases hp with hp | hp
        · subst hp
          rcases List.mem_cons.mp hc with hcd | hcr
          · exact hcd ▸ List.mem_cons_self _ _
          · exact List.mem_cons_of_mem _ (ih r (by rw [hds]; exact List.mem_cons_self _ _) hcr)
        · exact List.mem_cons_of_mem _ (ih p (by rw [hds]; exact List.mem_cons_of_mem _ hp) hc)

theorem pySplit_ne_nil (sep : Char) (s : String) : pySplit sep s ≠ [] := by
  intro h
  exact splitCharL_ne_nil sep s.data (by simpa [pySplit] using h)

theorem not_mem_of_mem_pySplit (sep c : Char) (s p : String)
    (hp : p ∈ pySplit sep s) (hs : c ∉ s.data) : c ∉ p.data := by
  intro hc
  rcases List.mem_map.mp hp with ⟨q, hq, rfl⟩
  exact hs (mem_of_mem_splitCharL sep c s.data q hq (by simpa using hc))

theorem pySplit_pyJoin (sep : Char) (parts : List String)
    (hne : parts ≠ []) (hsep : ∀ p ∈ parts, sep ∉ p.data) :
    pySplit sep (pyJoin sep parts) = parts := by
  unfold pySplit pyJoin
  rw [data_asString]
  rw [splitCharL_joinWith sep (parts.map String.data)
    (by simpa using hne)
    (by intro p hp
        rcases List.mem_map.mp hp with ⟨q, hq, rfl⟩
        exact hsep q hq)]
  rw [List.map_map]
  exact List.map_id parts

/-! ### Lemmas about `mapOpt` -/

theorem mapOpt_eq_map (f : α → Option β) (g : α → β) (l : List α)
    (h : ∀ a ∈ l, f a = some (g a)) : mapOpt f l = some (l.map g) := by
  induction l with
  | nil => rfl
  | cons a as ih =>
    have ha := h a (List.mem_cons_self _ _)
    have has := ih (fun x hx => h x (List.mem_cons_of_mem _ hx))
    simp [mapOpt, ha, has]

theorem mapOpt_eq_none (f : α → Option β) (l : List α) (a : α)
    (ha : a ∈ l) (hf : f a = none) : mapOpt f l = none := by
  induction l with
  | nil => exact absurd ha (List.not_mem_nil a)
  | cons b bs ih =>
    rcases List.mem_cons.mp ha with h | h
    · subst h; simp [mapOpt, hf]
    · cases hfb : f b with
      | none => simp [mapOpt, hfb]
      | some v => simp [mapOpt, hfb, ih h]

theorem mapOpt_forall (f : α → Option β) (l : List α) (r : List β)
    (h : mapOpt f l = some r) :
    List.Forall₂ (fun a b => f a = some b) l r := by
  induction l generalizing r with
  | nil =>
    simp only [mapOpt, Option.some.injEq] at h
    subst h
    exact List.Forall₂.nil
  | cons a as ih =>
    cases hfa : f a with
    | none => simp [mapOpt, hfa] at h
    | some b =>
      cases has : mapOpt f as with
      | none => simp [mapOpt, hfa, has] at h
      | some bs =>
        simp only [mapOpt, hfa, has, Option.some.injEq] at h
        subst h
        exact List.Forall₂.cons hfa (ih bs has)

/-! ### Lemmas about the stable keyed insertion sort -/

theorem insertKeyed_perm (x : Int × String) (l : List (Int × String)) :
    (insertKeyed x l).Perm (x :: l) := by
  induction l with
  | nil => exact List.Perm.refl _
  | cons y ys ih =>
    simp only [insertKeyed]
    by_cases h : y.1 < x.1
    · rw [if_pos h]
      exact (ih.cons y).trans (List.Perm.swap x y ys)
    · rw [if_neg h]

theorem isortKeyed_perm (l : List (Int × String)) : (isortKeyed l).Perm l := by
  induction l with
  | nil => exact List.Perm.refl _
  | cons x xs ih => exact (insertKeyed_perm x (isortKeyed xs)).trans (ih.cons x)

theorem insertKeyed_pairwise (x : Int × String) (l : List (Int × String))
    (h : l.Pairwise (fun a b => a.1 ≤ b.1)) :
    (insertKeyed x l).Pairwise (fun a b => a.1 ≤ b.1) := by
  induction l with
  | nil => simp [insertKeyed]
  | cons y ys ih =>
    rcases List.pairwise_cons.mp h with ⟨hy, hys⟩
    simp only [insertKeyed]
    by_cases hlt : y.1 < x.1
    · rw [if_pos hlt]
      refine List.pairwise_cons.mpr ⟨?_, ih hys⟩
      intro z hz
      rcases List.mem_cons.mp ((insertKeyed_perm x ys).mem_iff.mp hz) with rfl | hzys
      · exact le_of_lt hlt
      · exact hy z hzys
    · rw [if_neg hlt]
      refine List.pairwise_cons.mpr ⟨?_, h⟩
      intro z hz
      rcases List.mem_cons.mp hz with rfl | hzys
      · exact le_of_not_lt hlt
      · exact le_trans (le_of_not_lt hlt) (hy z hzys)

theorem isortKeyed_pairwise (l : List (Int × String)) :
    (isortKeyed l).Pairwise (fun a b => a.1 ≤ b.1) := by
  induction l with
  | nil => simp [isortKeyed]
  | cons x xs ih => exact insertKeyed_pairwise x (isortKeyed xs) ih

theorem filter_insertKeyed (k : Int) (x : Int × String) (l : List (Int × String)) :
    (insertKeyed x l).filter (fun p => decide (p.1 = k)) =
      (if x.1 = k then [x] else []) ++ l.filter (fun p => decide (p.1 = k)) := by
  induction l with
  | nil =>
    by_cases hx : x.1 = k <;> simp [insertKeyed, List.filter, hx]
  | cons y ys ih =>
    simp only [insertKeyed]
    by_cases hlt : y.1 < x.1
    · rw [if_pos hlt]
      by_cases hy : y.1 = k
      · have hx : ¬ x.1 = k := by
          intro hxk
          rw [hy, hxk] at hlt
          exact lt_irrefl k hlt
        simp [List.filter_cons, hy, hx, ih]
      · simp [List.filter_cons, hy, ih]
    · rw [if_neg hlt]
      by_cases hx : x.1 = k <;> simp [List.filter_cons, hx]

theorem filter_isortKeyed (k : Int) (l : List (Int × String)) :
    (isortKeyed l).filter (fun p => decide (p.1 = k)) =
      l.filter (fun p => decide (p.1 = k)) := by
  induction l with
  | nil => rfl
  | cons x xs ih =>
    simp only [isortKeyed]
    rw [filter_insertKeyed k x (isortKeyed xs), ih, List.filter_cons]
    by_cases hx : x.1 = k <;> simp [hx]

/-! ### A helper about the composer's row count -/

theorem compose_csv_data_row_count (a b : Option (List String))
    (ls : List String) (n : Nat)
    (h : compose_csv_data a b = some (ls, n)) : n = ls.length := by
  cases a with
  | none => simp [compose_csv_data] at h
  | some d =>
    cases b with
    | none => simp [compose_csv_data] at h
    | some c =>
      simp only [compose_csv_data] at h
      by_cases hdc : d = [] ∨ c = []
      · rw [if_pos hdc] at h
        exact absurd h (by simp)
      · rw [if_neg hdc] at h
        simp only [Option.some.injEq, Prod.mk.injEq] at h
        rw [← h.1, ← h.2]

/-! ### Claim theorems -/

/-- C1: end-to-end scenario — columns `["1|name","0|id"]`, data
`["2|bob","1|alice"]`, expected_data_rows = 2: the column preparer returns
`["id","name"]`, the row transformer returns `["2,bob","1,alice"]`,
composition yields the artifact lines `["id,name","2,bob","1,alice"]` with
row_count 3, and validation passes (3 - 1 = 2), so the artifact is both
written and forwarded to storage. -/
theorem end_to_end_scenario :
    prep_cols ["1|name", "0|id"] = some ["id", "name"] ∧
    prep_data ["2|bob", "1|alice"] = ["2,bob", "1,alice"] ∧
    compose_csv_data (some ["2,bob", "1,alice"]) (some ["id,name"]) =
      some (["id,name", "2,bob", "1,alice"], 3) ∧
    run_main ["1|name", "0|id"] ["2|bob", "1|alice"] 2 =
      ⟨some ["id,name", "2,bob", "1,alice"],
       some ["id,name", "2,bob", "1,alice"], none⟩ := by decide

/-- C3 counterexample: for the data row line `"a,b|c"` (a field containing an
embedded comma), splitting the transformed row on comma does NOT yield the
same field sequence as splitting the original line on pipe. -/
theorem round_trip_counterexample :
    prep_data ["a,b|c"] = ["a,b,c"] ∧
    pySplit ',' "a,b,c" ≠ pySplit '|' "a,b|c" := by decide

/-- C3 (amended): for every data row line whose text contains no comma,
splitting the transformed row (the output of `prep_data`) on comma yields
exactly the same field sequence as splitting the original line on pipe. -/
theorem prep_data_round_trip (s : String) (h : ',' ∉ s.data) :
    prep_data [s] = [pyJoin ',' (pySplit '|' s)] ∧
    pySplit ',' (pyJoin ',' (pySplit '|' s)) = pySplit '|' s := by
  refine ⟨rfl, ?_⟩
  exact pySplit_pyJoin ',' (pySplit '|' s) (pySplit_ne_nil '|' s)
    (fun p hp => not_mem_of_mem_pySplit '|' ',' s p hp h)

/-- Witness for the amended C3 at the concrete row `"2|bob"`. -/
theorem prep_data_round_trip_witness :
    prep_data ["2|bob"] = [pyJoin ',' (pySplit '|' "2|bob")] ∧
    pySplit ',' (pyJoin ',' (pySplit '|' "2|bob")) = pySplit '|' "2|bob" :=
  prep_data_round_trip "2|bob" (by decide)

/-- C8 counterexample: `prep_data` maps the pipe-free row `"a,b"` to itself,
whose comma field count (2) differs from the pipe field count of the input
(1): the field-count clause fails on rows with embedded commas. -/
theorem field_count_counterexample :
    prep_data ["a,b"] = ["a,b"] ∧
    (pySplit ',' "a,b").length ≠ (pySplit '|' "a,b").length := by decide

/-- C8 (amended): `prep_data` is length-preserving and positional — the
output has the same number of lines and the line at each position is the
comma-join of the pipe-split of the input line at that position — and for
every input line containing no comma, the output line's comma field count
equals the input line's pipe field count. -/
theorem prep_data_length_preserving (data : List String) (i : Nat) (s : String)
    (hs : data[i]? = some s) :
    (prep_data data).length = data.length ∧
    (prep_data data)[i]? = some (pyJoin ',' (pySplit '|' s)) ∧
    (',' ∉ s.data →
      (pySplit ',' (pyJoin ',' (pySplit '|' s))).length =
        (pySplit '|' s).length) := by
  refine ⟨by simp [prep_data], ?_, ?_⟩
  · simp [prep_data, hs]
  · intro h
    rw [pySplit_pyJoin ',' (pySplit '|' s) (pySplit_ne_nil '|' s)
      (fun p hp => not_mem_of_mem_pySplit '|' ',' s p hp h)]

/-- Witness for the amended C8 at `["2|bob", "1|alice"]`, index 1. -/
theorem prep_data_length_preserving_witness :
    (prep_data ["2|bob", "1|alice"]).length = (["2|bob", "1|alice"] : List String).length ∧
    (prep_data ["2|bob", "1|alice"])[1]? = some (pyJoin ',' (pySplit '|' "1|alice")) ∧
    (',' ∉ "1|alice".data →
      (pySplit ',' (pyJoin ',' (pySplit '|' "1|alice"))).length =
        (pySplit '|' "1|alice").length) :=
  prep_data_length_preserving ["2|bob", "1|alice"] 1 "1|alice" (by decide)

/-- C6: the composer fails exactly when either argument is null (`None`) or
an empty list; otherwise it returns the header concatenated with the body,
in that order, with `row_count` equal to the number of lines. -/
theorem compose_csv_data_spec (data cols : Option (List String)) :
    (compose_csv_data data cols = none ↔
      data = none ∨ data = some [] ∨ cols = none ∨ cols = some []) ∧
    (∀ d c, data = some d → cols = some c → d ≠ [] → c ≠ [] →
      compose_csv_data data cols = some (c ++ d, (c ++ d).length)) := by
  constructor
  · cases data with
    | none => simp [compose_csv_data]
    | some d =>
      cases cols with
      | none => simp [compose_csv_data]
      | some c =>
        by_cases hd : d = []
        · simp [compose_csv_data, hd]
        · by_cases hc : c = []
          · simp [compose_csv_data, hd, hc]
          · simp [compose_csv_data, hd, hc]
  · intro d c hdat hcol hd hc
    subst hdat; subst hcol
    simp [compose_csv_data, hd, hc]

/-- Witness for C6 at header `["id"]` and body `["2,bob"]`. -/
theorem compose_csv_data_spec_witness :
    compose_csv_data (some ["2,bob"]) (some ["id"]) =
      some (["id"] ++ ["2,bob"], (["id"] ++ ["2,bob"]).length) :=
  (compose_csv_data_spec (some ["2,bob"]) (some ["id"])).2
    ["2,bob"] ["id"] rfl rfl (by decide) (by decide)

/-- C9: the core pipeline is deterministic — two runs on identical column
lines, identical data lines and the same expected-row-count constant agree
on the prepared columns, the transformed rows, and the whole run result
(in particular the composed artifact's lines). -/
theorem pipeline_idempotent (c1 c2 d1 d2 : List String) (e1 e2 : Int)
    (hc : c1 = c2) (hd : d1 = d2) (he : e1 = e2) :
    prep_cols c1 = prep_cols c2 ∧ prep_data d1 = prep_data d2 ∧
    run_main c1 d1 e1 = run_main c2 d2 e2 := by
  subst hc; subst hd; subst he
  exact ⟨rfl, rfl, rfl⟩

/-- Witness for C9 on the scenario inputs. -/
theorem pipeline_idempotent_witness :
    prep_cols ["1|name", "0|id"] = prep_cols ["1|name", "0|id"] ∧
    prep_data ["2|bob"] = prep_data ["2|bob"] ∧
    run_main ["1|name", "0|id"] ["2|bob"] 1 =
      run_main ["1|name", "0|id"] ["2|bob"] 1 :=
  pipeline_idempotent ["1|name", "0|id"] ["1|name", "0|id"]
    ["2|bob"] ["2|bob"] 1 1 rfl rfl rfl

/-- C10 (implicit): a column line with two or more pipes whose first segment
parses as an integer does not make `prep_cols` fail: the first segment is
used as the sort key and the second as the column name, the remaining
segments being silently discarded. -/
theorem prep_cols_extra_segments (s p0 p1 : String) (rest : List String)
    (k : Int) (hsplit : pySplit '|' s = p0 :: p1 :: rest) (_hrest : rest ≠ [])
    (hk : pyInt p0 = some k) :
    sortKey 0 s = some k ∧ prep_cols [s] = some [p1] := by
  have hkey : sortKey 0 s = some k := by
    simp [sortKey, hsplit, hk]
  refine ⟨hkey, ?_⟩
  have h1 : mapOpt (fun item => (sortKey 0 item).map (fun k => (k, item))) [s] =
      some [(k, s)] := by
    simp [mapOpt, hkey]
  have h2 : sort_by [s] 0 = some [s] := by
    simp [sort_by, h1, isortKeyed, insertKeyed]
  simp [prep_cols, h2, mapOpt, hsplit]

/-- Witness for C10 at the column line `"2|id|x|y"` (three pipes). -/
theorem prep_cols_extra_segments_witness :
    sortKey 0 "2|id|x|y" = some 2 ∧ prep_cols ["2|id|x|y"] = some ["id"] :=
  prep_cols_extra_segments "2|id|x|y" "2" "id" ["x", "y"] 2
    (by decide) (by decide) (by decide)

/-! ### Characterizing a successful `sort_by` -/

theorem keyed_map_snd (ki : Nat) (l : List String) (r : List (Int × String))
    (h : List.Forall₂
      (fun a b => (sortKey ki a).map (fun k => (k, a)) = some b) l r) :
    r.map Prod.snd = l := by
  induction h with
  | nil => rfl
  | @cons a b as bs hab htail ih =>
    cases hk : sortKey ki a with
    | none => rw [hk] at hab; exact absurd hab (by simp)
    | some k =>
      rw [hk] at hab
      simp only [Option.map_some', Option.some.injEq] at hab
      rw [List.map_cons, ih, ← hab]

theorem sort_by_perm (data : List String) (ki : Nat) (out : List String)
    (h : sort_by data ki = some out) : out.Perm data := by
  unfold sort_by at h
  cases hm : mapOpt (fun item => (sortKey ki item).map (fun k => (k, item))) data with
  | none => rw [hm] at h; exact absurd h (by simp)
  | some keyed =>
    rw [hm] at h
    simp only [Option.some.injEq] at h
    subst h
    have hsnd : keyed.map Prod.snd = data :=
      keyed_map_snd ki data keyed (mapOpt_forall _ _ _ hm)
    exact hsnd ▸ (isortKeyed_perm keyed).map Prod.snd

/-- C4: the row-count validation is a hard gate.  Whenever a composed
artifact was written, the run forwards it to storage exactly when
`row_count - 1` (with `row_count` the number of artifact lines) equals the
expected constant; on any deviation nothing is forwarded and the run halts
recording the observed (`row_count - 1`) and expected counts; and a run that
never wrote an artifact never forwards one. -/
theorem run_main_validation_gate (c d : List String) (e : Int) :
    (∀ lines, (run_main c d e).written = some lines →
      (((lines.length : Int) - 1 = e →
          (run_main c d e).stored = some lines ∧ (run_main c d e).halt = none) ∧
        ((lines.length : Int) - 1 ≠ e →
          (run_main c d e).stored = none ∧
          (run_main c d e).halt =
            some (Halt.rowCountMismatch ((lines.length : Int) - 1) e)))) ∧
    ((run_main c d e).written = none → (run_main c d e).stored = none) := by
  cases hrc : read_file c true with
  | none => simp [run_main, hrc]
  | some cols =>
    cases hpc : prep_cols cols with
    | none => simp [run_main, hrc, hpc]
    | some names =>
      cases hrd : read_file d true with
      | none => simp [run_main, hrc, hpc, hrd]
      | some source_data =>
        cases hcomp : compose_csv_data (some (prep_data source_data))
            (some [pyJoin ',' names]) with
        | none => simp [run_main, hrc, hpc, hrd, hcomp]
        | some pair =>
          obtain ⟨ls, n⟩ := pair
          have hn : n = ls.length := compose_csv_data_row_count _ _ _ _ hcomp
          subst hn
          by_cases hgate : (ls.length : Int) - 1 ≠ e
          · have hrun : run_main c d e =
                ⟨some ls, none,
                  some (Halt.rowCountMismatch ((ls.length : Int) - 1) e)⟩ := by
              simp [run_main, hrc, hpc, hrd, hcomp, if_pos hgate]
            rw [hrun]
            refine ⟨?_, by intro hw; simp at hw⟩
            intro lines hw
            simp only [Option.some.injEq] at hw
            subst hw
            exact ⟨fun heq => absurd heq hgate, fun _ => ⟨rfl, rfl⟩⟩
          · have heq : (ls.length : Int) - 1 = e := not_not.mp hgate
            have hrun : run_main c d e = ⟨some ls, some ls, none⟩ := by
              simp [run_main, hrc, hpc, hrd, hcomp, if_neg hgate]
            rw [hrun]
            refine ⟨?_, by intro hw; simp at hw⟩
            intro lines hw
            simp only [Option.some.injEq] at hw
            subst hw
            exact ⟨fun _ => ⟨rfl, rfl⟩, fun hne => absurd heq hne⟩

/-- Witness for C4: the scenario inputs with expected_data_rows = 3 — the
artifact has 3 lines, 3 - 1 ≠ 3, so nothing is stored and the halt records
observed 2 and expected 3. -/
theorem run_main_validation_gate_witness :
    (run_main ["1|name", "0|id"] ["2|bob", "1|alice"] 3).stored = none ∧
    (run_main ["1|name", "0|id"] ["2|bob", "1|alice"] 3).halt =
      some (Halt.rowCountMismatch 2 3) := by
  have h := ((run_main_validation_gate ["1|name", "0|id"]
      ["2|bob", "1|alice"] 3).1
    ["id,name", "2,bob", "1,alice"] (by decide)).2 (by decide)
  simpa using h

/-- C7 counterexample: a run whose data file is empty but whose column file
holds the unparseable line `"xx"` halts at column preparation — not with an
empty-input halt — though still before any write. -/
theorem run_main_empty_counterexample :
    run_main ["xx"] [] 5 = ⟨none, none, some Halt.malformedColumns⟩ ∧
    Halt.malformedColumns ≠ Halt.emptyData ∧
    Halt.malformedColumns ≠ Halt.emptyColumns := by decide

/-- C7 (amended): a run with an empty column file or an empty data file
writes nothing and forwards nothing, and halts; an empty column file halts
with the empty-columns exit, and an empty data file halts with the
empty-data exit whenever the stages before it (column read and column
preparation) succeeded. -/
theorem run_main_empty_input (colFile dataFile : List String) (e : Int) :
    (colFile = [] ∨ dataFile = [] →
      (run_main colFile dataFile e).written = none ∧
      (run_main colFile dataFile e).stored = none ∧
      ((run_main colFile dataFile e).halt).isSome = true) ∧
    (colFile = [] →
      run_main colFile dataFile e = ⟨none, none, some Halt.emptyColumns⟩) ∧
    (dataFile = [] → ∀ cols names, read_file colFile true = some cols →
      prep_cols cols = some names →
      run_main colFile dataFile e = ⟨none, none, some Halt.emptyData⟩) := by
  have hcolnil : colFile = [] →
      run_main colFile dataFile e = ⟨none, none, some Halt.emptyColumns⟩ := by
    intro h
    subst h
    simp [run_main, read_file]
  have hdatnil : dataFile = [] → ∀ cols names,
      read_file colFile true = some cols → prep_cols cols = some names →
      run_main colFile dataFile e = ⟨none, none, some Halt.emptyData⟩ := by
    intro h cols names hrc hpc
    subst h
    have hrd : read_file ([] : List String) true = none := by simp [read_file]
    simp [run_main, hrc, hpc, hrd]
  refine ⟨?_, hcolnil, hdatnil⟩
  rintro (h | h)
  · rw [hcolnil h]
    exact ⟨rfl, rfl, rfl⟩
  · cases hrc : read_file colFile true with
    | none => simp [run_main, hrc]
    | some cols =>
      cases hpc : prep_cols cols with
      | none => simp [run_main, hrc, hpc]
      | some names =>
        rw [hdatnil h cols names hrc hpc]
        exact ⟨rfl, rfl, rfl⟩

/-- Witness for the amended C7: an empty column file and an empty data file
with otherwise valid inputs. -/
theorem run_main_empty_input_witness :
    run_main [] ["2|bob"] 1 = ⟨none, none, some Halt.emptyColumns⟩ ∧
    run_main ["0|id"] [] 1 = ⟨none, none, some Halt.emptyData⟩ := by
  refine ⟨(run_main_empty_input [] ["2|bob"] 1).2.1 rfl, ?_⟩
  exact (run_main_empty_input ["0|id"] [] 1).2.2 rfl ["0|id"] ["id"]
    (by decide) (by decide)

/-- C5 counterexample: the column line `"1|name|extra"` does not contain the
pipe delimiter exactly once, yet `prep_cols` succeeds on it instead of
failing. -/
theorem prep_cols_malformed_counterexample :
    (pySplit '|' "1|name|extra").length ≠ 2 ∧
    prep_cols ["1|name|extra"] = some ["name"] := by decide

/-- C5 (amended): for every column line that contains no pipe delimiter at
all, or whose ordinal segment is not parseable as an integer, `prep_cols`
fails (an uncaught exception), and the pipeline halts there — before the
data file is read or transformed — writing and forwarding nothing. -/
theorem prep_cols_malformed (cols : List String) (s : String) (hs : s ∈ cols)
    (hbad : (pySplit '|' s).length = 1 ∨ sortKey 0 s = none) :
    prep_cols cols = none ∧
    (∀ colFile dataFile e, read_file colFile true = some cols →
      run_main colFile dataFile e = ⟨none, none, some Halt.malformedColumns⟩) := by
  have hnone : prep_cols cols = none := by
    rcases hbad with hlen | hkey
    · cases hsb : sort_by cols 0 with
      | none => simp [prep_cols, hsb]
      | some cols_sorted =>
        have hmem : s ∈ cols_sorted :=
          (sort_by_perm cols 0 cols_sorted hsb).mem_iff.mpr hs
        have hidx : (pySplit '|' s)[1]? = none :=
          List.getElem?_eq_none (by omega)
        have hm := mapOpt_eq_none (fun col => (pySplit '|' col)[1]?)
          cols_sorted s hmem hidx
        simp [prep_cols, hsb, hm]
    · have hf : ((sortKey 0 s).map (fun k => (k, s)) : Option (Int × String)) = none := by
        simp [hkey]
      have hm := mapOpt_eq_none
        (fun item => (sortKey 0 item).map (fun k => (k, item))) cols s hs hf
      simp [prep_cols, sort_by, hm]
  refine ⟨hnone, ?_⟩
  intro colFile dataFile e hread
  simp [run_main, hread, hnone]

/-- Witness for the amended C5: the scenario's non-integer ordinal line
`"abc|name"`. -/
theorem prep_cols_malformed_witness :
    prep_cols ["abc|name"] = none ∧
    run_main ["abc|name"] ["2|bob"] 1 =
      ⟨none, none, some Halt.malformedColumns⟩ := by
  have h := prep_cols_malformed ["abc|name"] "abc|name"
    (by decide) (Or.inr (by decide))
  exact ⟨h.1, h.2 ["abc|name"] ["2|bob"] 1 (by decide)⟩

/-- C2: on well-formed column input (every line has exactly two pipe
segments and an integer ordinal) `prep_cols` succeeds; the intermediate
`sort_by` output is a permutation of the input whose ordinals are pairwise
non-decreasing, and for every ordinal value the sub-sequence of lines
carrying that ordinal equals the input's sub-sequence in original order — a
stable sort; the returned names are the name segments of that sorted
sequence, in order, and there are exactly as many as input lines. -/
theorem prep_cols_sorted_stable (l : List String)
    (hwf : ∀ s ∈ l, (pySplit '|' s).length = 2 ∧ ∃ k, sortKey 0 s = some k) :
    ∃ cols_sorted names,
      sort_by l 0 = some cols_sorted ∧
      prep_cols l = some names ∧
      names.length = l.length ∧
      cols_sorted.Perm l ∧
      cols_sorted.Pairwise (fun a b => ∀ ka kb,
        sortKey 0 a = some ka → sortKey 0 b = some kb → ka ≤ kb) ∧
      (∀ k : Int,
        cols_sorted.filter (fun s => decide (sortKey 0 s = some k)) =
          l.filter (fun s => decide (sortKey 0 s = some k))) ∧
      names = cols_sorted.map (fun s => (pySplit '|' s).getD 1 "") := by
  have hg : ∀ s ∈ l,
      (fun item => ((sortKey 0 item).map (fun k => (k, item)))) s =
        some ((fun s => ((sortKey 0 s).getD 0, s)) s) := by
    intro s hs
    obtain ⟨-, k, hk⟩ := hwf s hs
    simp [hk]
  have hmap := mapOpt_eq_map
    (fun item => (sortKey 0 item).map (fun k => (k, item)))
    (fun s => ((sortKey 0 s).getD 0, s)) l hg
  have hsnd :
      (l.map (fun s => ((sortKey 0 s).getD 0, s))).map Prod.snd = l := by
    rw [List.map_map]
    exact List.map_id l
  have hkey : ∀ p ∈ l.map (fun s => ((sortKey 0 s).getD 0, s)),
      sortKey 0 p.2 = some p.1 := by
    intro p hp
    rcases List.mem_map.mp hp with ⟨s, hs, rfl⟩
    obtain ⟨-, k, hk⟩ := hwf s hs
    simp [hk]
  have hpermK := isortKeyed_perm (l.map (fun s => ((sortKey 0 s).getD 0, s)))
  have hkeyK : ∀ p ∈ isortKeyed (l.map (fun s => ((sortKey 0 s).getD 0, s))),
      sortKey 0 p.2 = some p.1 :=
    fun p hp => hkey p (hpermK.mem_iff.mp hp)
  have hperm :
      ((isortKeyed (l.map (fun s => ((sortKey 0 s).getD 0, s)))).map
        Prod.snd).Perm l := by
    have h := hpermK.map Prod.snd
    rw [hsnd] at h
    exact h
  have hsort : sort_by l 0 =
      some ((isortKeyed (l.map (fun s => ((sortKey 0 s).getD 0, s)))).map
        Prod.snd) := by
    simp [sort_by, hmap]
  have hpw :
      ((isortKeyed (l.map (fun s => ((sortKey 0 s).getD 0, s)))).map
        Prod.snd).Pairwise (fun a b => ∀ ka kb,
          sortKey 0 a = some ka → sortKey 0 b = some kb → ka ≤ kb) := by
    rw [List.pairwise_map]
    refine (isortKeyed_pairwise _).imp_of_mem (fun {p q} hp hq hle => ?_)
    intro ka kb hka hkb
    obtain rfl : p.1 = ka := Option.some.inj ((hkeyK p hp).symm.trans hka)
    obtain rfl : q.1 = kb := Option.some.inj ((hkeyK q hq).symm.trans hkb)
    exact hle
  have hfil : ∀ k : Int,
      ((isortKeyed (l.map (fun s => ((sortKey 0 s).getD 0, s)))).map
        Prod.snd).filter (fun s => decide (sortKey 0 s = some k)) =
      l.filter (fun s => decide (sortKey 0 s = some k)) := by
    intro k
    rw [List.filter_map]
    have h1 := List.filter_congr
      (p := (fun s => decide (sortKey 0 s = some k)) ∘ Prod.snd)
      (q := fun p : Int × String => decide (p.1 = k))
      (l := isortKeyed (List.map (fun s => ((sortKey 0 s).getD 0, s)) l))
      (fun p hp => by
        simp only [Function.comp_apply, hkeyK p hp, Option.some.injEq])
    have h2 := List.filter_congr
      (p := fun p : Int × String => decide (p.1 = k))
      (q := (fun s => decide (sortKey 0 s = some k)) ∘ Prod.snd)
      (l := List.map (fun s => ((sortKey 0 s).getD 0, s)) l)
      (fun p hp => by
        simp only [Function.comp_apply, hkey p hp, Option.some.injEq])
    rw [h1, filter_isortKeyed k _, h2, ← List.filter_map, hsnd]
  have hname : ∀ s ∈ (isortKeyed
        (l.map (fun s => ((sortKey 0 s).getD 0, s)))).map Prod.snd,
      ((pySplit '|' s)[1]? : Option String) =
        some ((fun s => (pySplit '|' s).getD 1 "") s) := by
    intro s hs
    obtain ⟨hlen, -⟩ := hwf s (hperm.subset hs)
    obtain ⟨a, b, hab⟩ := List.length_eq_two.mp hlen
    simp [hab]
  have hnames := mapOpt_eq_map (fun col => ((pySplit '|' col)[1]? : Option String))
    (fun s => (pySplit '|' s).getD 1 "") _ hname
  have hprep : prep_cols l =
      some (((isortKeyed (l.map (fun s => ((sortKey 0 s).getD 0, s)))).map
        Prod.snd).map (fun s => (pySplit '|' s).getD 1 "")) := by
    simp [prep_cols, hsort, hnames]
  refine ⟨_, _, hsort, hprep, ?_, hperm, hpw, hfil, rfl⟩
  rw [List.length_map]
  exact hperm.length_eq

/-- Witness for C2 at the columns `["1|b", "0|a", "1|c"]` (a duplicate
ordinal exercising the stable tie-break). -/
theorem prep_cols_sorted_stable_witness :
    ∃ cols_sorted names,
      sort_by ["1|b", "0|a", "1|c"] 0 = some cols_sorted ∧
      prep_cols ["1|b", "0|a", "1|c"] = some names ∧
      names.length = (["1|b", "0|a", "1|c"] : List String).length ∧
      cols_sorted.Perm ["1|b", "0|a", "1|c"] ∧
      cols_sorted.Pairwise (fun a b => ∀ ka kb,
        sortKey 0 a = some ka → sortKey 0 b = some kb → ka ≤ kb) ∧
      (∀ k : Int,
        cols_sorted.filter (fun s => decide (sortKey 0 s = some k)) =
          (["1|b", "0|a", "1|c"] : List String).filter
            (fun s => decide (sortKey 0 s = some k))) ∧
      names = cols_sorted.map (fun s => (pySplit '|' s).getD 1 "") :=
  prep_cols_sorted_stable ["1|b", "0|a", "1|c"] (by
    intro s hs
    simp only [List.mem_cons, List.not_mem_nil, or_false] at hs
    rcases hs with rfl | rfl | rfl
    · exact ⟨by decide, 1, by decide⟩
    · exact ⟨by decide, 0, by decide⟩
    · exact ⟨by decide, 1, by decide⟩)
